import Mathlib

/-!
Shallow embedding of the request-execution core of the ethers-rs middleware
stack (base provider transaction filling, signer middleware, proxy
transformer, gas escalator, paginated log query), with theorems checking the
specification's claims against it.

Remote calls are modelled by an environment of response oracles; every
operation that may hit the transport returns, next to its result, the list of
transport calls it issued, so "performs no transport call" is an equation on
that trace.
-/

/-- Ethereum address (H160 in the source); the claims do not depend on its width. -/
abbrev Address := Nat

/-- 256-bit unsigned quantity (U256 in the source); arithmetic on these values
never overflows in the modelled code paths, so Nat is faithful. -/
abbrev U256 := Nat

/-- Raw byte payload (ethers-core Bytes); each entry is one byte. -/
abbrev Bytes := List Nat

/-- Transaction hash (H256 in the source). -/
abbrev TxHash := Nat

/-- A produced signature; the claims never inspect its contents. -/
abbrev Signature := Nat

/-- ethers-core NameOrAddress: a recipient that is either a symbolic ENS name
pending resolution or a plain address. -/
inductive NameOrAddress where
  | Name (s : String)
  | Addr (a : Address)
deriving DecidableEq

/-- EIP-2930 access list: pairs of address and storage keys. -/
abbrev AccessList := List (Address × List U256)

/-- ethers-core TransactionRequest: the legacy-priced transaction format.
Field names follow the source (`from` is a Lean keyword, hence `from_`). -/
structure TransactionRequest where
  from_ : Option Address
  to_ : Option NameOrAddress
  gas : Option U256
  gas_price : Option U256
  value : Option U256
  data : Option Bytes
  nonce : Option U256
  chain_id : Option Nat
deriving DecidableEq

/-- ethers-core Eip2930TransactionRequest: a legacy-priced request plus an
access list. -/
structure Eip2930TransactionRequest where
  tx : TransactionRequest
  access_list : AccessList
deriving DecidableEq

/-- ethers-core Eip1559TransactionRequest: the fee-market transaction format
with separate max-fee and max-priority-fee fields. -/
structure Eip1559TransactionRequest where
  from_ : Option Address
  to_ : Option NameOrAddress
  gas : Option U256
  value : Option U256
  data : Option Bytes
  nonce : Option U256
  access_list : AccessList
  max_priority_fee_per_gas : Option U256
  max_fee_per_gas : Option U256
  chain_id : Option Nat
deriving DecidableEq

/-- ethers-core TypedTransaction (transaction/eip2718.rs): tagged union over
the supported transaction formats. -/
inductive TypedTransaction where
  | Legacy (tx : TransactionRequest)
  | Eip2930 (tx : Eip2930TransactionRequest)
  | Eip1559 (tx : Eip1559TransactionRequest)
deriving DecidableEq

/-- TypedTransaction::from. -/
def TypedTransaction.from_ : TypedTransaction → Option Address
  | .Legacy t => t.from_
  | .Eip2930 t => t.tx.from_
  | .Eip1559 t => t.from_

/-- TypedTransaction::set_from. -/
def TypedTransaction.set_from : TypedTransaction → Address → TypedTransaction
  | .Legacy t, a => .Legacy { t with from_ := some a }
  | .Eip2930 t, a => .Eip2930 { t with tx := { t.tx with from_ := some a } }
  | .Eip1559 t, a => .Eip1559 { t with from_ := some a }

/-- TypedTransaction::to. -/
def TypedTransaction.to_ : TypedTransaction → Option NameOrAddress
  | .Legacy t => t.to_
  | .Eip2930 t => t.tx.to_
  | .Eip1559 t => t.to_

/-- TypedTransaction::set_to. -/
def TypedTransaction.set_to : TypedTransaction → NameOrAddress → TypedTransaction
  | .Legacy t, v => .Legacy { t with to_ := some v }
  | .Eip2930 t, v => .Eip2930 { t with tx := { t.tx with to_ := some v } }
  | .Eip1559 t, v => .Eip1559 { t with to_ := some v }

/-- TypedTransaction::to_addr: the recipient only when it is a plain address. -/
def TypedTransaction.to_addr (tx : TypedTransaction) : Option Address :=
  match tx.to_ with
  | some (.Addr a) => some a
  | _ => none

/-- TypedTransaction::gas. -/
def TypedTransaction.gas : TypedTransaction → Option U256
  | .Legacy t => t.gas
  | .Eip2930 t => t.tx.gas
  | .Eip1559 t => t.gas

/-- TypedTransaction::set_gas. -/
def TypedTransaction.set_gas : TypedTransaction → U256 → TypedTransaction
  | .Legacy t, g => .Legacy { t with gas := some g }
  | .Eip2930 t, g => .Eip2930 { t with tx := { t.tx with gas := some g } }
  | .Eip1559 t, g => .Eip1559 { t with gas := some g }

/-- TypedTransaction::gas_price: for the fee-market variant this is the
max-fee field. -/
def TypedTransaction.gas_price : TypedTransaction → Option U256
  | .Legacy t => t.gas_price
  | .Eip2930 t => t.tx.gas_price
  | .Eip1559 t => t.max_fee_per_gas

/-- TypedTransaction::set_gas_price. -/
def TypedTransaction.set_gas_price : TypedTransaction → U256 → TypedTransaction
  | .Legacy t, p => .Legacy { t with gas_price := some p }
  | .Eip2930 t, p => .Eip2930 { t with tx := { t.tx with gas_price := some p } }
  | .Eip1559 t, p => .Eip1559 { t with max_fee_per_gas := some p }

/-- TypedTransaction::nonce. -/
def TypedTransaction.nonce : TypedTransaction → Option U256
  | .Legacy t => t.nonce
  | .Eip2930 t => t.tx.nonce
  | .Eip1559 t => t.nonce

/-- TypedTransaction::set_nonce. -/
def TypedTransaction.set_nonce : TypedTransaction → U256 → TypedTransaction
  | .Legacy t, n => .Legacy { t with nonce := some n }
  | .Eip2930 t, n => .Eip2930 { t with tx := { t.tx with nonce := some n } }
  | .Eip1559 t, n => .Eip1559 { t with nonce := some n }

/-- TypedTransaction::chain_id. -/
def TypedTransaction.chain_id : TypedTransaction → Option Nat
  | .Legacy t => t.chain_id
  | .Eip2930 t => t.tx.chain_id
  | .Eip1559 t => t.chain_id

/-- TypedTransaction::set_chain_id. -/
def TypedTransaction.set_chain_id : TypedTransaction → Nat → TypedTransaction
  | .Legacy t, c => .Legacy { t with chain_id := some c }
  | .Eip2930 t, c => .Eip2930 { t with tx := { t.tx with chain_id := some c } }
  | .Eip1559 t, c => .Eip1559 { t with chain_id := some c }

/-- TypedTransaction::data. -/
def TypedTransaction.data : TypedTransaction → Option Bytes
  | .Legacy t => t.data
  | .Eip2930 t => t.tx.data
  | .Eip1559 t => t.data

/-- TypedTransaction::set_data. -/
def TypedTransaction.set_data : TypedTransaction → Bytes → TypedTransaction
  | .Legacy t, d => .Legacy { t with data := some d }
  | .Eip2930 t, d => .Eip2930 { t with tx := { t.tx with data := some d } }
  | .Eip1559 t, d => .Eip1559 { t with data := some d }

/-- TypedTransaction::value. -/
def TypedTransaction.value : TypedTransaction → Option U256
  | .Legacy t => t.value
  | .Eip2930 t => t.tx.value
  | .Eip1559 t => t.value

/-- TypedTransaction::access_list: absent for the legacy variant. -/
def TypedTransaction.access_list : TypedTransaction → Option AccessList
  | .Legacy _ => none
  | .Eip2930 t => some t.access_list
  | .Eip1559 t => some t.access_list

/-- The fee-market max-fee field (none for the other variants). -/
def TypedTransaction.max_fee : TypedTransaction → Option U256
  | .Eip1559 t => t.max_fee_per_gas
  | _ => none

/-- The fee-market max-priority-fee field (none for the other variants). -/
def TypedTransaction.max_priority_fee : TypedTransaction → Option U256
  | .Eip1559 t => t.max_priority_fee_per_gas
  | _ => none

/-- ProviderError (ethers-providers/src/provider.rs), restricted to the
variants the modelled operations can produce. -/
inductive ProviderError where
  | JsonRpcClientError (msg : String)
  | EnsError (name : String)
  | EnsNotOwned (name : String)
  | CustomError (msg : String)
  | UnsupportedRPC
  | UnsupportedNodeClient
  | SignerUnavailable
deriving DecidableEq

/-- One observable transport-layer request issued by the modelled operations;
the gas-estimate call records the transaction it simulates. -/
inductive RpcCall where
  | resolveName (name : String)
  | getGasPrice
  | estimateEip1559Fees
  | estimateGas (tx : TypedTransaction)
  | getTransactionCount (a : Address)
deriving DecidableEq

/-- The base provider's configuration plus the node's responses to each
remote query it can issue (the transport abstracted as response oracles). -/
structure ProviderEnv where
  from_ : Option Address
  resolve_name : String → Except ProviderError Address
  get_gas_price : Except ProviderError U256
  estimate_eip1559_fees : Except ProviderError (U256 × U256)
  estimate_gas : TypedTransaction → Option Nat → Except ProviderError U256
  get_transaction_count : Address → Option Nat → Except ProviderError U256

/-- Provider::fill_transaction (provider.rs lines 239-286): set the default
sender when `from` is unset, resolve an ENS recipient, fill the price fields
by variant (single gas price for legacy/access-list, the max-fee pair from one
estimate_eip1559_fees call for fee-market when either is unset), and finally
estimate gas only when the caller left it unset.  Returns the filled
transaction together with the transport calls issued, in order. -/
def Provider.fill_transaction (p : ProviderEnv) (tx0 : TypedTransaction)
    (block : Option Nat) :
    Except ProviderError (TypedTransaction × List RpcCall) := do
  let tx1 :=
    match p.from_ with
    | some default_sender =>
        if tx0.from_.isNone then tx0.set_from default_sender else tx0
    | none => tx0
  let (tx2, calls_ens) ←
    match tx1.to_ with
    | some (.Name ens_name) => do
        let addr ← p.resolve_name ens_name
        pure (tx1.set_to (.Addr addr), [RpcCall.resolveName ens_name])
    | _ => pure (tx1, [])
  let (tx3, calls_price) ←
    match tx2 with
    | .Eip1559 inner =>
        if inner.max_fee_per_gas.isNone || inner.max_priority_fee_per_gas.isNone then do
          let fees ← p.estimate_eip1559_fees
          pure (TypedTransaction.Eip1559
                  { inner with
                    max_fee_per_gas := some fees.1
                    max_priority_fee_per_gas := some fees.2 },
                [RpcCall.estimateEip1559Fees])
        else
          pure (tx2, [])
    | _ =>
        match tx2.gas_price with
        | some item => pure (tx2.set_gas_price item, [])
        | none => do
            let gp ← p.get_gas_price
            pure (tx2.set_gas_price gp, [RpcCall.getGasPrice])
  let (tx4, calls_gas) ←
    if tx3.gas.isNone then do
      let gas_estimate ← p.estimate_gas tx3 block
      pure (tx3.set_gas gas_estimate, [RpcCall.estimateGas tx3])
    else
      pure (tx3, [])
  pure (tx4, calls_ens ++ calls_price ++ calls_gas)

/-- Provider::sign_transaction (provider.rs lines 540-547): the terminal layer
has no signing capability and always fails, issuing no transport request. -/
def Provider.sign_transaction (_tx : TypedTransaction) (_from : Address) :
    Except ProviderError Signature × List RpcCall :=
  (.error .SignerUnavailable, [])

/-- The local signing capability (ethers-signers Signer trait, an external
collaborator): a configured address and chain id plus signing functions whose
outcomes are abstracted as oracles.  Signing is local: it issues no transport
call. -/
structure Signer where
  address : Address
  chain_id : Nat
  sign_transaction : TypedTransaction → Except String Signature
  sign_message : Bytes → Except String Signature

/-- SignerMiddlewareError (ethers-middleware/src/signer.rs lines 24-50). -/
inductive SignerMiddlewareError where
  | SignerError (e : String)
  | MiddlewareError (e : ProviderError)
  | NonceMissing
  | GasPriceMissing
  | GasMissing
  | WrongSigner
  | DifferentChainID
deriving DecidableEq

/-- The raw signed transaction returned by the signing helper; RLP encoding
itself is out of scope (ethers-core), so the result keeps the transaction that
was signed and the signature, which is what the claims observe. -/
structure RlpSigned where
  tx : TypedTransaction
  signature : Signature
deriving DecidableEq

/-- SignerMiddleware::sign_transaction, the inherent helper (signer.rs lines
76-98): rejects a transaction whose chain id disagrees with the signer's with
DifferentChainID, sets the signer's chain id when the transaction has none,
then signs locally.  It touches no transport (its inputs are only the signer
and the transaction). -/
def SignerMiddleware.sign_transaction (s : Signer) (tx : TypedTransaction) :
    Except SignerMiddlewareError RlpSigned :=
  let chain_id := s.chain_id
  let step : Except SignerMiddlewareError TypedTransaction :=
    match tx.chain_id with
    | some id => if id ≠ chain_id then .error .DifferentChainID else .ok tx
    | none => .ok (tx.set_chain_id chain_id)
  match step with
  | .error e => .error e
  | .ok tx => (s.sign_transaction tx).map (fun sig => ⟨tx, sig⟩)
      |>.mapError SignerMiddlewareError.SignerError

/-- SignerMiddleware's Middleware::sign_transaction override (signer.rs lines
175-181): delegates directly to the signer; the requested from address
parameter is bound as `_` in the source and takes no part in the result. -/
def SignerMiddleware.mw_sign_transaction (s : Signer) (tx : TypedTransaction)
    (_from : Address) : Except SignerMiddlewareError Signature :=
  (s.sign_transaction tx).mapError SignerMiddlewareError.SignerError

/-- SignerMiddleware's Middleware::fill_transaction override (signer.rs lines
184-210), with the base provider as the inner layer: resolve the effective
sender (an explicit from different from the signer's address wins, else the
signer's address), set the signer's chain id only when the transaction has
none, resolve the nonce (caller-supplied, else one get_transaction_count
transport call), then delegate the remaining filling to the inner layer. -/
def SignerMiddleware.fill_transaction (s : Signer) (p : ProviderEnv)
    (tx0 : TypedTransaction) (block : Option Nat) :
    Except SignerMiddlewareError (TypedTransaction × List RpcCall) := do
  let from_ :=
    match tx0.from_ with
    | some f => if some f ≠ some s.address then f else s.address
    | none => s.address
  let tx1 := tx0.set_from from_
  let chain_id := s.chain_id
  let tx2 := if tx1.chain_id.isNone then tx1.set_chain_id chain_id else tx1
  let (nonce, calls_nonce) ←
    match tx2.nonce with
    | some n => pure (n, [])
    | none => do
        let n ← (p.get_transaction_count from_ block).mapError
          SignerMiddlewareError.MiddlewareError
        pure (n, [RpcCall.getTransactionCount from_])
  let tx3 := tx2.set_nonce nonce
  let (tx4, calls_inner) ← (Provider.fill_transaction p tx3 block).mapError
    SignerMiddlewareError.MiddlewareError
  pure (tx4, calls_nonce ++ calls_inner)

/-- TransformerError (ethers-middleware transformer module; only the variants
DsProxy::transform can produce). -/
inductive TransformerError where
  | MissingField (field : String)
  | AbiError (msg : String)
deriving DecidableEq

/-- The 4-byte function selector of DsProxy's execute(address,bytes) entry
point (`utils::id("execute(address,bytes)")` in the source, the first four
bytes of the Keccak-256 hash of the signature, 0x1cff79cd). -/
def execute_selector : Bytes := [0x1c, 0xff, 0x79, 0xcd]

/-- A 32-byte big-endian ABI word. -/
def abi_word (n : Nat) : Bytes :=
  (List.range 32).map (fun i => n / 256 ^ (31 - i) % 256)

/-- Right-pad a byte string with zeros to a multiple of 32 bytes, as the ABI
requires for dynamic bytes. -/
def abi_pad_right (bs : Bytes) : Bytes :=
  bs ++ List.replicate ((32 - bs.length % 32) % 32) 0

/-- Modelled from the spec: contract-ABI encoding is an external collaborator
(BaseContract::encode_with_selector lives in ethers-core/ethers-contract, not
under the provided sources); this is the standard Solidity ABI encoding of a
call to execute(address,bytes) with arguments (target, data): selector, the
address as one word, the offset of the dynamic bytes (0x40), their length, and
the right-padded bytes. -/
def encode_execute (target : Address) (data : Bytes) : Bytes :=
  execute_selector ++ abi_word target ++ abi_word 64 ++
    abi_word data.length ++ abi_pad_right data

/-- DsProxy::transform (transformer/ds_proxy/mod.rs lines 77-96): requires the
transaction's target to be a plain address (MissingField "to" otherwise),
re-encodes the call as execute(address,bytes) applied to the original target
and payload, then points the transaction at the proxy's address. -/
def DsProxy.transform (proxy_address : Address) (tx : TypedTransaction) :
    Except TransformerError TypedTransaction :=
  match tx.to_addr with
  | none => .error (.MissingField "to")
  | some target =>
    let data := tx.data.getD []
    let encoded_data := encode_execute target data
    .ok ((tx.set_data encoded_data).set_to (.Addr proxy_address))

/-- GasEscalatorError (gas_escalator/mod.rs lines 85-94). -/
inductive GasEscalatorError where
  | MiddlewareError (e : ProviderError)
  | UnsupportedTxType
deriving DecidableEq

/-- One entry of the gas escalator's monitored-transaction list
(gas_escalator/mod.rs line 47): transaction hash, the original legacy-format
request, the broadcast instant, and the optional block context. -/
abbrev EscalationRecord := TxHash × TransactionRequest × Nat × Option Nat

/-- Modelled from the spec: GasEscalatorMiddleware's send_transaction override
is not in the provided sources (only the middleware struct, its `txs` monitor
list and the UnsupportedTxType error are).  Per the spec, on submit the layer
hands the transaction to the inner layer unchanged, then, if the transaction
is of a pricing-escalatable variant (legacy or access-list), appends exactly
one Escalation Record to the monitor list; fee-market variants are rejected
with UnsupportedTxType without enqueuing a record.  The monitor list is
threaded explicitly; `inner_send` abstracts the inner layer's submission. -/
def GasEscalatorMiddleware.send_transaction
    (inner_send : TypedTransaction → Except ProviderError TxHash)
    (txs : List EscalationRecord) (tx : TypedTransaction)
    (now : Nat) (block : Option Nat) :
    Except GasEscalatorError TxHash × List EscalationRecord :=
  match inner_send tx with
  | .error e => (.error (.MiddlewareError e), txs)
  | .ok pending =>
    match tx with
    | .Legacy req => (.ok pending, txs ++ [(pending, req, now, block)])
    | .Eip2930 t => (.ok pending, txs ++ [(pending, t.tx, now, block)])
    | .Eip1559 _ => (.error .UnsupportedTxType, txs)

/-- One retrieved log entry; the claims only observe its position in the
chain, so only the block number is kept. -/
structure Log where
  block_number : Nat
deriving DecidableEq

/-- Modelled from the spec: the LogQuery polling state machine's page windows
(the Stream implementation of log_query.rs is not in the provided sources;
only the cursor struct and its states are).  Starting from `from_block`, each
round issues a LoadLogs fetch for the window of `page_size` blocks beginning
at the cursor, then advances the cursor by `page_size`; the sequence
terminates once the cursor passes the captured head block `last_block`. -/
def log_query_pages (from_block last_block page_size : Nat) :
    List (Nat × Nat) :=
  if _hP : page_size = 0 then []
  else if _hf : last_block < from_block then []
  else
    (from_block, from_block + page_size - 1) ::
      log_query_pages (from_block + page_size) last_block page_size
termination_by last_block + 1 - from_block
decreasing_by simp_wf; omega

/-- Modelled from the spec: one LoadLogs fetch for the window `[w.1, w.2]`
returns the logs of those blocks in block order; `logs_of` abstracts the
node's per-block logs. -/
def page_logs (logs_of : Nat → List Log) (w : Nat × Nat) : List Log :=
  (List.range' w.1 (w.2 + 1 - w.1)).flatMap logs_of

/-- Modelled from the spec: the full sequence of logs a paginated query
delivers to its consumer, page after page. -/
def log_query_delivered (logs_of : Nat → List Log)
    (from_block last_block page_size : Nat) : List Log :=
  (log_query_pages from_block last_block page_size).flatMap
    (page_logs logs_of)

/-- Modelled from the spec: the string form of the reverse-resolution record
for an address (ens::reverse_address, not under the provided sources). -/
def ens_reverse_address (address : Address) : String :=
  toString address ++ ".addr.reverse"

/-- Provider::lookup_address (provider.rs lines 684-694): reverse-resolve the
address to a domain, forward-resolve that domain, and return it only when the
forward resolution points back at the original address, failing with
EnsNotOwned otherwise.  The two resolver round trips (query_resolver /
resolve_name, both transport-backed) are abstracted as oracles. -/
def Provider.lookup_address
    (query_resolver_string : String → Except ProviderError String)
    (resolve_name : String → Except ProviderError Address)
    (address : Address) : Except ProviderError String := do
  let domain ← query_resolver_string (ens_reverse_address address)
  let reverse_address ← resolve_name domain
  if address ≠ reverse_address then
    .error (.EnsNotOwned domain)
  else
    .ok domain

/-! Field-preservation lemmas for the transaction setters. -/

theorem TypedTransaction.chain_id_set_from (tx : TypedTransaction) (a : Address) :
    (tx.set_from a).chain_id = tx.chain_id := by
  cases tx <;> rfl

theorem TypedTransaction.chain_id_set_to (tx : TypedTransaction) (v : NameOrAddress) :
    (tx.set_to v).chain_id = tx.chain_id := by
  cases tx <;> rfl

theorem TypedTransaction.chain_id_set_gas (tx : TypedTransaction) (g : U256) :
    (tx.set_gas g).chain_id = tx.chain_id := by
  cases tx <;> rfl

theorem TypedTransaction.chain_id_set_gas_price (tx : TypedTransaction) (v : U256) :
    (tx.set_gas_price v).chain_id = tx.chain_id := by
  cases tx <;> rfl

theorem TypedTransaction.chain_id_set_nonce (tx : TypedTransaction) (n : U256) :
    (tx.set_nonce n).chain_id = tx.chain_id := by
  cases tx <;> rfl

theorem TypedTransaction.gas_price_set_gas_price (tx : TypedTransaction) (v : U256) :
    (tx.set_gas_price v).gas_price = some v := by
  cases tx <;> rfl

theorem TypedTransaction.gas_set_gas_price (tx : TypedTransaction) (v : U256) :
    (tx.set_gas_price v).gas = tx.gas := by
  cases tx <;> rfl

/-- A legacy or access-list transaction whose single gas price is already the
value being set is left exactly unchanged by set_gas_price. -/
theorem TypedTransaction.set_gas_price_self (tx : TypedTransaction) (v : U256)
    (h : tx.gas_price = some v) : tx.set_gas_price v = tx := by
  cases tx with
  | Legacy t => cases t; simp_all [TypedTransaction.gas_price, TypedTransaction.set_gas_price]
  | Eip2930 t => cases t with
    | mk tx al => cases tx; simp_all [TypedTransaction.gas_price, TypedTransaction.set_gas_price]
  | Eip1559 t => cases t; simp_all [TypedTransaction.gas_price, TypedTransaction.set_gas_price]

/-- Concrete fixtures used by witnesses and counterexamples. -/
def emptyRequest : TransactionRequest :=
  ⟨none, none, none, none, none, none, none, none⟩

def providerEnvFixture : ProviderEnv :=
  { from_ := none
    resolve_name := fun _ => .ok 11
    get_gas_price := .ok 3
    estimate_eip1559_fees := .ok (40, 2)
    estimate_gas := fun _ _ => .ok 21000
    get_transaction_count := fun _ _ => .ok 7 }

/-- Claim C9: for every transaction and every from address, the base
Provider's sign_transaction returns the SignerUnavailable error and issues no
transport request; the terminal layer can never locally sign. -/
theorem provider_sign_transaction_always_unavailable
    (tx : TypedTransaction) (from_ : Address) :
    Provider.sign_transaction tx from_ =
      (.error ProviderError.SignerUnavailable, []) := rfl

/-- Claim C8 (amended): SignerMiddleware's Middleware sign_transaction
delegates directly to the signer regardless of the requested signer address —
its result never is the WrongSigner error and does not depend on the
requested address at all. -/
theorem mw_sign_transaction_ignores_requested_address
    (s : Signer) (tx : TypedTransaction) (a b : Address) :
    SignerMiddleware.mw_sign_transaction s tx a ≠
      Except.error SignerMiddlewareError.WrongSigner ∧
    SignerMiddleware.mw_sign_transaction s tx a =
      SignerMiddleware.mw_sign_transaction s tx b := by
  cases h : s.sign_transaction tx <;>
    simp [SignerMiddleware.mw_sign_transaction, h, Except.mapError]

def signerFixture : Signer :=
  { address := 10
    chain_id := 1
    sign_transaction := fun _ => .ok 7
    sign_message := fun _ => .ok 7 }

/-- Claim C8 counterexample: with a signer configured for address 10, a
signature requested for the different address 99 succeeds (delegated to the
signer) instead of failing with WrongSigner, so the claim as stated is false. -/
theorem mw_sign_transaction_wrong_signer_counterexample :
    (99 : Address) ≠ signerFixture.address ∧
    SignerMiddleware.mw_sign_transaction signerFixture
        (.Legacy emptyRequest) 99 ≠
      Except.error SignerMiddlewareError.WrongSigner := by
  refine ⟨by decide, ?_⟩
  have h : SignerMiddleware.mw_sign_transaction signerFixture
      (.Legacy emptyRequest) 99 = .ok 7 := rfl
  simp [h]

/-- Claim C5: a transaction whose target is the plain address T and whose
payload is D is rewritten by DsProxy::transform to target the proxy address
with payload the ABI-encoded execute(address,bytes) call applied to (T, D),
all other fields unchanged; a transaction with no target set fails with
MissingField "to". -/
theorem ds_proxy_transform_spec (proxy T : Address) (D : Bytes)
    (tx txn : TypedTransaction)
    (hto : tx.to_ = some (.Addr T)) (hdata : tx.data = some D)
    (hnone : txn.to_ = none) :
    (∃ tx2, DsProxy.transform proxy tx = .ok tx2 ∧
      tx2.to_ = some (.Addr proxy) ∧
      tx2.data = some (encode_execute T D) ∧
      tx2.from_ = tx.from_ ∧
      tx2.gas = tx.gas ∧
      tx2.gas_price = tx.gas_price ∧
      tx2.value = tx.value ∧
      tx2.nonce = tx.nonce ∧
      tx2.chain_id = tx.chain_id ∧
      tx2.access_list = tx.access_list ∧
      tx2.max_priority_fee = tx.max_priority_fee) ∧
    DsProxy.transform proxy txn = .error (.MissingField "to") := by
  constructor
  · refine ⟨(tx.set_data (encode_execute T D)).set_to (.Addr proxy), ?_, ?_⟩
    · simp [DsProxy.transform, TypedTransaction.to_addr, hto, hdata]
    · cases tx <;> simp_all [TypedTransaction.to_, TypedTransaction.data,
        TypedTransaction.set_data, TypedTransaction.set_to, TypedTransaction.from_,
        TypedTransaction.gas, TypedTransaction.gas_price, TypedTransaction.value,
        TypedTransaction.nonce, TypedTransaction.chain_id,
        TypedTransaction.access_list, TypedTransaction.max_priority_fee]
  · simp [DsProxy.transform, TypedTransaction.to_addr, hnone]

def txWithTarget : TypedTransaction :=
  .Legacy { emptyRequest with to_ := some (.Addr 5), data := some [1, 2, 3] }

/-- Claim C5 witness: the transform theorem applied at the proxy address 77, a
transaction targeting address 5 with payload [1,2,3], and a transaction with
no target. -/
theorem ds_proxy_transform_spec_witness :
    (∃ tx2, DsProxy.transform 77 txWithTarget = .ok tx2 ∧
      tx2.to_ = some (.Addr 77) ∧
      tx2.data = some (encode_execute 5 [1, 2, 3]) ∧
      tx2.from_ = txWithTarget.from_ ∧
      tx2.gas = txWithTarget.gas ∧
      tx2.gas_price = txWithTarget.gas_price ∧
      tx2.value = txWithTarget.value ∧
      tx2.nonce = txWithTarget.nonce ∧
      tx2.chain_id = txWithTarget.chain_id ∧
      tx2.access_list = txWithTarget.access_list ∧
      tx2.max_priority_fee = txWithTarget.max_priority_fee) ∧
    DsProxy.transform 77 (.Legacy emptyRequest) = .error (.MissingField "to") :=
  ds_proxy_transform_spec 77 5 [1, 2, 3] txWithTarget (.Legacy emptyRequest)
    rfl rfl rfl

/-! Reduction lemmas for the Except monad's bind and pure, used to unfold the
do-notation of the embedded operations. -/

theorem except_bind_ok {α β ε : Type} (a : α) (f : α → Except ε β) :
    (Except.ok a >>= f) = f a := rfl

theorem except_bind_error {α β ε : Type} (e : ε) (f : α → Except ε β) :
    ((Except.error e : Except ε α) >>= f) = Except.error e := rfl

theorem except_pure_eq {α ε : Type} (a : α) :
    (pure a : Except ε α) = Except.ok a := rfl

/-- Claim C10: if lookup_address returns a name, forward-resolving that name
yields exactly the original address; whenever the forward resolution of the
reverse-resolved name yields a different address, lookup_address fails with
EnsNotOwned instead of returning the name. -/
theorem lookup_address_round_trip
    (q : String → Except ProviderError String)
    (r : String → Except ProviderError Address) (a : Address) :
    (∀ n, Provider.lookup_address q r a = .ok n → r n = .ok a) ∧
    (∀ d a2, q (ens_reverse_address a) = .ok d → r d = .ok a2 → a2 ≠ a →
      Provider.lookup_address q r a = .error (.EnsNotOwned d)) := by
  constructor
  · intro n h
    unfold Provider.lookup_address at h
    cases hq : q (ens_reverse_address a) with
    | error e => rw [hq, except_bind_error] at h; exact absurd h (by simp)
    | ok d =>
      rw [hq, except_bind_ok] at h
      cases hr : r d with
      | error e => rw [hr, except_bind_error] at h; exact absurd h (by simp)
      | ok a2 =>
        rw [hr, except_bind_ok] at h
        by_cases hne : a ≠ a2
        · simp [hne] at h
        · simp only [not_not] at hne
          simp [hne] at h
          subst h
          rw [hr, hne]
  · intro d a2 hq hr hne
    unfold Provider.lookup_address
    rw [hq, except_bind_ok, hr, except_bind_ok]
    have hna : a ≠ a2 := fun he => hne (he ▸ rfl)
    simp [hna]

/-- Claim C10 witness: lookup_address applied with concrete resolver oracles,
once in the owned case (forward resolution returns the queried address 5) and
once in the not-owned case (forward resolution returns 6 instead of 5). -/
theorem lookup_address_round_trip_witness :
    ((fun _ => Except.ok 5 : String → Except ProviderError Address) "reg.eth" =
      .ok 5) ∧
    Provider.lookup_address (fun _ => .ok "reg.eth") (fun _ => .ok 6) 5 =
      .error (.EnsNotOwned "reg.eth") :=
  ⟨(lookup_address_round_trip (fun _ => .ok "reg.eth")
      (fun _ => .ok 5) 5).1 "reg.eth" rfl,
   (lookup_address_round_trip (fun _ => .ok "reg.eth")
      (fun _ => .ok 6) 5).2 "reg.eth" 6 rfl rfl (by decide)⟩

/-- Claim C6: a fee-market transaction submitted through the gas escalator
layer is rejected with UnsupportedTxType and leaves the monitored-transaction
list unchanged; a legacy or access-list submission that succeeds appends
exactly one Escalation Record carrying the pending hash, the original
request, the broadcast instant and the block context. -/
theorem gas_escalator_submit_spec
    (inner_send : TypedTransaction → Except ProviderError TxHash)
    (txs : List EscalationRecord) (now : Nat) (block : Option Nat) :
    (∀ t h, inner_send (.Eip1559 t) = .ok h →
      GasEscalatorMiddleware.send_transaction inner_send txs (.Eip1559 t)
          now block =
        (.error .UnsupportedTxType, txs)) ∧
    (∀ req h, inner_send (.Legacy req) = .ok h →
      GasEscalatorMiddleware.send_transaction inner_send txs (.Legacy req)
          now block =
        (.ok h, txs ++ [(h, req, now, block)])) ∧
    (∀ t h, inner_send (.Eip2930 t) = .ok h →
      GasEscalatorMiddleware.send_transaction inner_send txs (.Eip2930 t)
          now block =
        (.ok h, txs ++ [(h, t.tx, now, block)])) := by
  refine ⟨fun t h hh => ?_, fun req h hh => ?_, fun t h hh => ?_⟩ <;>
    simp [GasEscalatorMiddleware.send_transaction, hh]

def eip1559Empty : Eip1559TransactionRequest :=
  ⟨none, none, none, none, none, none, [], none, none, none⟩

/-- Claim C6 witness: the escalator submission theorem applied with a
concrete inner layer that accepts every transaction with hash 42, an empty
monitor list, instant 100 and no block context. -/
theorem gas_escalator_submit_spec_witness :
    GasEscalatorMiddleware.send_transaction (fun _ => .ok 42) []
        (.Eip1559 eip1559Empty) 100 none =
      (.error .UnsupportedTxType, []) ∧
    GasEscalatorMiddleware.send_transaction (fun _ => .ok 42) []
        (.Legacy emptyRequest) 100 none =
      (.ok 42, [(42, emptyRequest, 100, none)]) ∧
    GasEscalatorMiddleware.send_transaction (fun _ => .ok 42) []
        (.Eip2930 ⟨emptyRequest, []⟩) 100 none =
      (.ok 42, [(42, emptyRequest, 100, none)]) := by
  refine ⟨?_, ?_, ?_⟩
  · exact (gas_escalator_submit_spec (fun _ => .ok 42) [] 100 none).1
      eip1559Empty 42 rfl
  · have h := (gas_escalator_submit_spec (fun _ => .ok 42) [] 100 none).2.1
      emptyRequest 42 rfl
    simpa using h
  · have h := (gas_escalator_submit_spec (fun _ => .ok 42) [] 100 none).2.2
      ⟨emptyRequest, []⟩ 42 rfl
    simpa using h

/-- The transaction's variant-dependent price fields are all set: the single
gas price for legacy/access-list, both fee fields for fee-market. -/
def prices_set : TypedTransaction → Bool
  | .Legacy t => t.gas_price.isSome
  | .Eip2930 t => t.tx.gas_price.isSome
  | .Eip1559 t => t.max_fee_per_gas.isSome && t.max_priority_fee_per_gas.isSome

/-- Claim C3: a transaction whose sender, plain-address recipient, gas limit
and price fields are all already set is returned unchanged by
Provider::fill_transaction, with zero transport requests issued. -/
theorem fill_transaction_fully_specified (p : ProviderEnv)
    (tx : TypedTransaction) (block : Option Nat) (a : Address)
    (hf : tx.from_.isSome) (hto : tx.to_ = some (.Addr a))
    (hg : tx.gas.isSome) (hp : prices_set tx = true) :
    Provider.fill_transaction p tx block = .ok (tx, []) := by
  cases tx with
  | Legacy t =>
    obtain ⟨f, t2, g, gp, vl, d, n, c⟩ := t
    simp only [TypedTransaction.from_, TypedTransaction.to_, TypedTransaction.gas,
      prices_set] at hf hto hg hp
    obtain ⟨fv, rfl⟩ := Option.isSome_iff_exists.mp hf
    obtain ⟨gv, rfl⟩ := Option.isSome_iff_exists.mp hg
    obtain ⟨pv, rfl⟩ := Option.isSome_iff_exists.mp hp
    subst hto
    unfold Provider.fill_transaction
    cases hpf : p.from_ <;>
      simp [hpf, except_bind_ok, except_pure_eq,
        TypedTransaction.from_, TypedTransaction.to_, TypedTransaction.gas,
        TypedTransaction.gas_price, TypedTransaction.set_gas_price]
  | Eip2930 t =>
    obtain ⟨⟨f, t2, g, gp, vl, d, n, c⟩, al⟩ := t
    simp only [TypedTransaction.from_, TypedTransaction.to_, TypedTransaction.gas,
      prices_set] at hf hto hg hp
    obtain ⟨fv, rfl⟩ := Option.isSome_iff_exists.mp hf
    obtain ⟨gv, rfl⟩ := Option.isSome_iff_exists.mp hg
    obtain ⟨pv, rfl⟩ := Option.isSome_iff_exists.mp hp
    subst hto
    unfold Provider.fill_transaction
    cases hpf : p.from_ <;>
      simp [hpf, except_bind_ok, except_pure_eq,
        TypedTransaction.from_, TypedTransaction.to_, TypedTransaction.gas,
        TypedTransaction.gas_price, TypedTransaction.set_gas_price]
  | Eip1559 t =>
    obtain ⟨f, t2, g, vl, d, n, al, mp, mf, c⟩ := t
    simp only [TypedTransaction.from_, TypedTransaction.to_, TypedTransaction.gas,
      prices_set, Bool.and_eq_true] at hf hto hg hp
    obtain ⟨fv, rfl⟩ := Option.isSome_iff_exists.mp hf
    obtain ⟨gv, rfl⟩ := Option.isSome_iff_exists.mp hg
    obtain ⟨mfv, rfl⟩ := Option.isSome_iff_exists.mp hp.1
    obtain ⟨mpv, rfl⟩ := Option.isSome_iff_exists.mp hp.2
    subst hto
    unfold Provider.fill_transaction
    cases hpf : p.from_ <;>
      simp [hpf, except_bind_ok, except_pure_eq,
        TypedTransaction.from_, TypedTransaction.to_, TypedTransaction.gas]

def txFullLegacy : TypedTransaction :=
  .Legacy ⟨some 1, some (.Addr 2), some 21000, some 3, some 0, none, some 0, some 1⟩

/-- Claim C3 witness: the fully-specified legacy transaction with sender 1,
recipient 2, gas 21000 and gas price 3 passes through filling unchanged with
an empty transport trace. -/
theorem fill_transaction_fully_specified_witness :
    Provider.fill_transaction providerEnvFixture txFullLegacy none =
      .ok (txFullLegacy, []) :=
  fill_transaction_fully_specified providerEnvFixture txFullLegacy none 2
    rfl rfl rfl rfl
theorem except_bind_def {α β ε : Type} (e : Except ε α) (f : α → Except ε β) :
    (e >>= f) = Except.bind e f := rfl

/-- Stage 1-2 of Provider::fill_transaction, restated as a standalone function
for factored reasoning: default-sender injection and ENS resolution. -/
def fill_step_sender_ens (p : ProviderEnv) (tx0 : TypedTransaction) :
    Except ProviderError (TypedTransaction × List RpcCall) := do
  let tx1 :=
    match p.from_ with
    | some default_sender =>
        if tx0.from_.isNone then tx0.set_from default_sender else tx0
    | none => tx0
  match tx1.to_ with
  | some (.Name ens_name) => do
      let addr ← p.resolve_name ens_name
      pure (tx1.set_to (.Addr addr), [RpcCall.resolveName ens_name])
  | _ => pure (tx1, [])

/-- Stage 3 of Provider::fill_transaction, restated as a standalone function
for factored reasoning: variant-dependent price filling. -/
def fill_step_price (p : ProviderEnv) (tx2 : TypedTransaction) :
    Except ProviderError (TypedTransaction × List RpcCall) :=
  match tx2 with
  | .Eip1559 inner =>
      if inner.max_fee_per_gas.isNone || inner.max_priority_fee_per_gas.isNone then do
        let fees ← p.estimate_eip1559_fees
        pure (TypedTransaction.Eip1559
                { inner with
                  max_fee_per_gas := some fees.1
                  max_priority_fee_per_gas := some fees.2 },
              [RpcCall.estimateEip1559Fees])
      else
        pure (tx2, [])
  | _ =>
      match tx2.gas_price with
      | some item => pure (tx2.set_gas_price item, [])
      | none => do
          let gp ← p.get_gas_price
          pure (tx2.set_gas_price gp, [RpcCall.getGasPrice])

/-- Stage 4 of Provider::fill_transaction, restated as a standalone function
for factored reasoning: gas estimation when the caller left the limit unset. -/
def fill_step_gas (p : ProviderEnv) (tx3 : TypedTransaction) (block : Option Nat) :
    Except ProviderError (TypedTransaction × List RpcCall) :=
  if tx3.gas.isNone then do
    let gas_estimate ← p.estimate_gas tx3 block
    pure (tx3.set_gas gas_estimate, [RpcCall.estimateGas tx3])
  else
    pure (tx3, [])

set_option maxHeartbeats 1000000 in
/-- Provider::fill_transaction is exactly the sequential composition of its
three stages, with the transport traces concatenated in order. -/
theorem fill_transaction_decomp (p : ProviderEnv) (tx0 : TypedTransaction)
    (block : Option Nat) :
    Provider.fill_transaction p tx0 block =
      (do
        let (tx2, c1) ← fill_step_sender_ens p tx0
        let (tx3, c2) ← fill_step_price p tx2
        let (tx4, c3) ← fill_step_gas p tx3 block
        pure (tx4, c1 ++ c2 ++ c3)) := by
  unfold Provider.fill_transaction fill_step_sender_ens fill_step_price fill_step_gas
  simp only [except_bind_def, except_pure_eq]
  delta Except.bind
  repeat' (first
    | simp only []
    | split)

/-- Recognizer for the fee-pair estimation transport call. -/
def RpcCall.is_fee_estimate : RpcCall → Bool
  | .estimateEip1559Fees => true
  | _ => false

/-- Recognizer for the gas-estimate transport call. -/
def RpcCall.is_gas_estimate : RpcCall → Bool
  | .estimateGas _ => true
  | _ => false

/-- Numeric tag of the transaction's variant (0 legacy, 1 access-list,
2 fee-market), used to state that an operation preserves the variant. -/
def TypedTransaction.tag : TypedTransaction → Nat
  | .Legacy _ => 0
  | .Eip2930 _ => 1
  | .Eip1559 _ => 2

theorem TypedTransaction.tag_set_from (tx : TypedTransaction) (a : Address) :
    (tx.set_from a).tag = tx.tag := by cases tx <;> rfl

theorem TypedTransaction.gas_set_from (tx : TypedTransaction) (a : Address) :
    (tx.set_from a).gas = tx.gas := by cases tx <;> rfl

theorem TypedTransaction.gas_price_set_from (tx : TypedTransaction) (a : Address) :
    (tx.set_from a).gas_price = tx.gas_price := by cases tx <;> rfl

theorem TypedTransaction.max_fee_set_from (tx : TypedTransaction) (a : Address) :
    (tx.set_from a).max_fee = tx.max_fee := by cases tx <;> rfl

theorem TypedTransaction.max_priority_fee_set_from (tx : TypedTransaction) (a : Address) :
    (tx.set_from a).max_priority_fee = tx.max_priority_fee := by cases tx <;> rfl

theorem TypedTransaction.nonce_set_from (tx : TypedTransaction) (a : Address) :
    (tx.set_from a).nonce = tx.nonce := by cases tx <;> rfl

theorem TypedTransaction.tag_set_to (tx : TypedTransaction) (v : NameOrAddress) :
    (tx.set_to v).tag = tx.tag := by cases tx <;> rfl

theorem TypedTransaction.gas_set_to (tx : TypedTransaction) (v : NameOrAddress) :
    (tx.set_to v).gas = tx.gas := by cases tx <;> rfl

theorem TypedTransaction.gas_price_set_to (tx : TypedTransaction) (v : NameOrAddress) :
    (tx.set_to v).gas_price = tx.gas_price := by cases tx <;> rfl

theorem TypedTransaction.max_fee_set_to (tx : TypedTransaction) (v : NameOrAddress) :
    (tx.set_to v).max_fee = tx.max_fee := by cases tx <;> rfl

theorem TypedTransaction.max_priority_fee_set_to (tx : TypedTransaction) (v : NameOrAddress) :
    (tx.set_to v).max_priority_fee = tx.max_priority_fee := by cases tx <;> rfl

theorem TypedTransaction.nonce_set_to (tx : TypedTransaction) (v : NameOrAddress) :
    (tx.set_to v).nonce = tx.nonce := by cases tx <;> rfl

theorem TypedTransaction.tag_set_gas_price (tx : TypedTransaction) (v : U256) :
    (tx.set_gas_price v).tag = tx.tag := by cases tx <;> rfl

theorem TypedTransaction.nonce_set_gas_price (tx : TypedTransaction) (v : U256) :
    (tx.set_gas_price v).nonce = tx.nonce := by cases tx <;> rfl

theorem TypedTransaction.tag_set_gas (tx : TypedTransaction) (g : U256) :
    (tx.set_gas g).tag = tx.tag := by cases tx <;> rfl

theorem TypedTransaction.gas_set_gas (tx : TypedTransaction) (g : U256) :
    (tx.set_gas g).gas = some g := by cases tx <;> rfl

theorem TypedTransaction.gas_price_set_gas (tx : TypedTransaction) (g : U256) :
    (tx.set_gas g).gas_price = tx.gas_price := by cases tx <;> rfl

theorem TypedTransaction.max_fee_set_gas (tx : TypedTransaction) (g : U256) :
    (tx.set_gas g).max_fee = tx.max_fee := by cases tx <;> rfl

theorem TypedTransaction.max_priority_fee_set_gas (tx : TypedTransaction) (g : U256) :
    (tx.set_gas g).max_priority_fee = tx.max_priority_fee := by cases tx <;> rfl

theorem TypedTransaction.nonce_set_gas (tx : TypedTransaction) (g : U256) :
    (tx.set_gas g).nonce = tx.nonce := by cases tx <;> rfl

theorem TypedTransaction.chain_id_set_data (tx : TypedTransaction) (d : Bytes) :
    (tx.set_data d).chain_id = tx.chain_id := by cases tx <;> rfl

theorem TypedTransaction.chain_id_set_chain_id (tx : TypedTransaction) (c : Nat) :
    (tx.set_chain_id c).chain_id = some c := by cases tx <;> rfl

set_option maxHeartbeats 1000000 in
/-- The sender/ENS stage preserves the variant, the gas limit, all price
fields, the chain id and the nonce, and issues at most one name-resolution
call (never a price or gas call). -/
theorem fill_step_sender_ens_spec (p : ProviderEnv)
    (tx0 tx2 : TypedTransaction) (c1 : List RpcCall)
    (h : fill_step_sender_ens p tx0 = .ok (tx2, c1)) :
    tx2.tag = tx0.tag ∧ tx2.gas = tx0.gas ∧ tx2.gas_price = tx0.gas_price ∧
    tx2.max_fee = tx0.max_fee ∧ tx2.max_priority_fee = tx0.max_priority_fee ∧
    tx2.chain_id = tx0.chain_id ∧ tx2.nonce = tx0.nonce ∧
    (c1 = [] ∨ ∃ nm, c1 = [RpcCall.resolveName nm]) := by
  unfold fill_step_sender_ens at h
  simp only [except_bind_def, except_pure_eq] at h
  delta Except.bind at h
  repeat' (first
    | simp only [] at h
    | split at h)
  all_goals first
    | exact Except.noConfusion h
    | (injection h with hp
       injection hp with h1 h2
       subst h1
       subst h2
       simp [TypedTransaction.tag_set_from, TypedTransaction.gas_set_from,
         TypedTransaction.gas_price_set_from, TypedTransaction.max_fee_set_from,
         TypedTransaction.max_priority_fee_set_from,
         TypedTransaction.chain_id_set_from, TypedTransaction.nonce_set_from,
         TypedTransaction.tag_set_to, TypedTransaction.gas_set_to,
         TypedTransaction.gas_price_set_to, TypedTransaction.max_fee_set_to,
         TypedTransaction.max_priority_fee_set_to,
         TypedTransaction.chain_id_set_to, TypedTransaction.nonce_set_to])

/-- The price stage on a fee-market transaction: when either fee field is
unset, the estimation call's pair is written into both fields atomically; when
both are set, the transaction passes through untouched with no call. -/
theorem fill_step_price_eip1559 (p : ProviderEnv)
    (inner : Eip1559TransactionRequest) :
    ((inner.max_fee_per_gas = none ∨ inner.max_priority_fee_per_gas = none) →
      fill_step_price p (.Eip1559 inner) =
        (p.estimate_eip1559_fees).map (fun fees =>
          (.Eip1559 { inner with
                      max_fee_per_gas := some fees.1
                      max_priority_fee_per_gas := some fees.2 },
           [RpcCall.estimateEip1559Fees]))) ∧
    (inner.max_fee_per_gas ≠ none → inner.max_priority_fee_per_gas ≠ none →
      fill_step_price p (.Eip1559 inner) = .ok (.Eip1559 inner, [])) := by
  constructor
  · intro hmiss
    unfold fill_step_price
    simp only []
    have hcond : (inner.max_fee_per_gas.isNone ||
        inner.max_priority_fee_per_gas.isNone) = true := by
      rcases hmiss with h | h <;> simp [h]
    rw [if_pos hcond]
    cases hf : p.estimate_eip1559_fees <;>
      simp [hf, except_bind_def, Except.bind, Except.map, except_pure_eq]
  · intro h1 h2
    unfold fill_step_price
    simp only []
    rw [if_neg (by simp [Option.isNone_iff_eq_none, h1, h2])]
    rfl

set_option maxHeartbeats 1000000 in
/-- The price stage on a legacy or access-list transaction: afterwards the
single gas price is set; the variant, gas limit, chain id and nonce are
preserved; at most one gas-price fetch is issued (never a gas estimate or a
fee-pair estimate). -/
theorem fill_step_price_non1559 (p : ProviderEnv)
    (tx2 tx3 : TypedTransaction) (c2 : List RpcCall)
    (hv : tx2.tag ≠ 2)
    (h : fill_step_price p tx2 = .ok (tx3, c2)) :
    tx3.gas_price.isSome = true ∧ tx3.tag = tx2.tag ∧ tx3.gas = tx2.gas ∧
    tx3.chain_id = tx2.chain_id ∧ tx3.nonce = tx2.nonce ∧
    (c2 = [] ∨ c2 = [RpcCall.getGasPrice]) := by
  unfold fill_step_price at h
  simp only [except_bind_def, except_pure_eq] at h
  delta Except.bind at h
  repeat' (first
    | simp only [] at h
    | split at h)
  all_goals first
    | exact Except.noConfusion h
    | (obtain ⟨h1, h2⟩ := h
       subst_vars
       simp_all [TypedTransaction.tag_set_gas_price,
         TypedTransaction.gas_set_gas_price,
         TypedTransaction.gas_price_set_gas_price,
         TypedTransaction.chain_id_set_gas_price,
         TypedTransaction.nonce_set_gas_price]
       done)
    | simp_all [TypedTransaction.tag]

set_option maxHeartbeats 1000000 in
/-- The price stage preserves the chain id on every variant. -/
theorem fill_step_price_chain_id (p : ProviderEnv)
    (tx2 tx3 : TypedTransaction) (c2 : List RpcCall)
    (h : fill_step_price p tx2 = .ok (tx3, c2)) :
    tx3.chain_id = tx2.chain_id := by
  unfold fill_step_price at h
  simp only [except_bind_def, except_pure_eq] at h
  delta Except.bind at h
  repeat' (first
    | simp only [] at h
    | split at h)
  all_goals first
    | exact Except.noConfusion h
    | (obtain ⟨h1, h2⟩ := h
       subst_vars
       first
         | rfl
         | simp_all [TypedTransaction.chain_id_set_gas_price]
       done)
    | simp_all [TypedTransaction.chain_id]

/-- The gas stage: with the limit unset it issues exactly the one gas-estimate
call for the current transaction and writes the estimate; with the limit set
it passes the transaction through with no call.  All other fields are
preserved in both cases. -/
theorem fill_step_gas_spec (p : ProviderEnv) (tx3 : TypedTransaction)
    (blk : Option Nat) (tx4 : TypedTransaction) (c3 : List RpcCall)
    (h : fill_step_gas p tx3 blk = .ok (tx4, c3)) :
    tx4.chain_id = tx3.chain_id ∧ tx4.gas_price = tx3.gas_price ∧
    tx4.max_fee = tx3.max_fee ∧ tx4.max_priority_fee = tx3.max_priority_fee ∧
    tx4.tag = tx3.tag ∧
    (c3 = [] ∨ ∃ txe, c3 = [RpcCall.estimateGas txe]) ∧
    (tx3.gas = none →
      ∃ g, p.estimate_gas tx3 blk = .ok g ∧ tx4 = tx3.set_gas g ∧
        c3 = [RpcCall.estimateGas tx3]) ∧
    (tx3.gas ≠ none → tx4 = tx3 ∧ c3 = []) := by
  unfold fill_step_gas at h
  simp only [except_bind_def, except_pure_eq] at h
  delta Except.bind at h
  repeat' (first
    | simp only [] at h
    | split at h)
  all_goals first
    | exact Except.noConfusion h
    | (obtain ⟨h1, h2⟩ := h
       subst_vars
       simp_all [TypedTransaction.chain_id_set_gas,
         TypedTransaction.gas_price_set_gas, TypedTransaction.max_fee_set_gas,
         TypedTransaction.max_priority_fee_set_gas, TypedTransaction.tag_set_gas,
         Option.isNone_iff_eq_none]
       done)
    | simp_all [Option.isNone_iff_eq_none]

theorem TypedTransaction.max_fee_mk1559 (t : Eip1559TransactionRequest) :
    (TypedTransaction.Eip1559 t).max_fee = t.max_fee_per_gas := rfl

theorem TypedTransaction.max_priority_fee_mk1559 (t : Eip1559TransactionRequest) :
    (TypedTransaction.Eip1559 t).max_priority_fee = t.max_priority_fee_per_gas := rfl

/-- A transaction with variant tag 2 is a fee-market transaction. -/
theorem TypedTransaction.tag_two_eip1559 (tx : TypedTransaction)
    (h : tx.tag = 2) : ∃ t, tx = .Eip1559 t := by
  cases tx <;> simp_all [TypedTransaction.tag]

/-- A transaction with variant tag 0 is a legacy transaction. -/
theorem TypedTransaction.tag_zero_legacy (tx : TypedTransaction)
    (h : tx.tag = 0) : ∃ t, tx = .Legacy t := by
  cases tx <;> simp_all [TypedTransaction.tag]

/-- Claim C2: for a fee-market transaction with at least one fee field unset,
Provider::fill_transaction sets both fields from the pair returned by a single
estimate_eip1559_fees call; and after every successful fill of a fee-market
transaction both fee fields are set — never exactly one. -/
theorem fill_transaction_eip1559_fee_pair (p : ProviderEnv) (blk : Option Nat)
    (t : Eip1559TransactionRequest) (tx4 : TypedTransaction)
    (calls : List RpcCall)
    (hok : Provider.fill_transaction p (.Eip1559 t) blk = .ok (tx4, calls)) :
    ((t.max_fee_per_gas = none ∨ t.max_priority_fee_per_gas = none) →
      ∃ mf mp, p.estimate_eip1559_fees = .ok (mf, mp) ∧
        tx4.max_fee = some mf ∧ tx4.max_priority_fee = some mp ∧
        calls.countP (fun c => c.is_fee_estimate) = 1) ∧
    tx4.max_fee.isSome = true ∧ tx4.max_priority_fee.isSome = true := by
  rw [fill_transaction_decomp] at hok
  cases h1 : fill_step_sender_ens p (.Eip1559 t) with
  | error e =>
    rw [h1] at hok
    exact absurd hok (by simp [except_bind_def, Except.bind])
  | ok r1 =>
    obtain ⟨tx2, c1⟩ := r1
    rw [h1, except_bind_def] at hok
    simp only [Except.bind] at hok
    obtain ⟨htag2, hg2, hgp2, hmf2, hmp2, hcid2, hn2, hc1⟩ :=
      fill_step_sender_ens_spec p _ tx2 c1 h1
    obtain ⟨t2, rfl⟩ := TypedTransaction.tag_two_eip1559 tx2 (by
      simpa [TypedTransaction.tag] using htag2)
    rw [TypedTransaction.max_fee_mk1559] at hmf2
    rw [TypedTransaction.max_priority_fee_mk1559] at hmp2
    simp only [TypedTransaction.max_fee_mk1559,
      TypedTransaction.max_priority_fee_mk1559] at hmf2 hmp2
    cases h2 : fill_step_price p (.Eip1559 t2) with
    | error e =>
      rw [h2] at hok
      exact absurd hok (by simp [except_bind_def, Except.bind])
    | ok r2 =>
      obtain ⟨tx3, c2⟩ := r2
      rw [h2, except_bind_def] at hok
      simp only [Except.bind] at hok
      cases h3 : fill_step_gas p tx3 blk with
      | error e =>
        rw [h3] at hok
        exact absurd hok (by simp [except_bind_def, Except.bind])
      | ok r3 =>
        obtain ⟨tx4a, c3⟩ := r3
        rw [h3, except_bind_def] at hok
        simp only [Except.bind, except_pure_eq, Except.ok.injEq,
          Prod.mk.injEq] at hok
        obtain ⟨rfl, rfl⟩ := hok
        obtain ⟨hcid4, hgp4, hmf4, hmp4, htag4, hc3, -, -⟩ :=
          fill_step_gas_spec p tx3 blk tx4a c3 h3
        by_cases hmiss : t.max_fee_per_gas = none ∨
            t.max_priority_fee_per_gas = none
        · have hmiss2 : t2.max_fee_per_gas = none ∨
              t2.max_priority_fee_per_gas = none := by
            rcases hmiss with h | h
            · exact Or.inl (hmf2.trans h)
            · exact Or.inr (hmp2.trans h)
          have hstep := (fill_step_price_eip1559 p t2).1 hmiss2
          rw [hstep] at h2
          cases hef : p.estimate_eip1559_fees with
          | error e => rw [hef] at h2; exact absurd h2 (by simp [Except.map])
          | ok fees =>
            rw [hef] at h2
            simp only [Except.map, Except.ok.injEq, Prod.mk.injEq] at h2
            obtain ⟨rfl, rfl⟩ := h2
            refine ⟨fun _ => ⟨fees.1, fees.2, rfl, ?_, ?_, ?_⟩, ?_, ?_⟩
            · rw [hmf4]; rfl
            · rw [hmp4]; rfl
            · rcases hc1 with rfl | ⟨nm, rfl⟩ <;>
                rcases hc3 with rfl | ⟨txe, rfl⟩ <;>
                  simp [List.countP_cons, List.countP_append, List.countP_nil,
                    RpcCall.is_fee_estimate]
            · rw [hmf4]; rfl
            · rw [hmp4]; rfl
        · push_neg at hmiss
          obtain ⟨hm1, hm2⟩ := hmiss
          have hm1b : t2.max_fee_per_gas ≠ none := by rw [hmf2]; exact hm1
          have hm2b : t2.max_priority_fee_per_gas ≠ none := by
            rw [hmp2]; exact hm2
          have hstep := (fill_step_price_eip1559 p t2).2 hm1b hm2b
          rw [hstep] at h2
          simp only [Except.ok.injEq, Prod.mk.injEq] at h2
          obtain ⟨rfl, rfl⟩ := h2
          refine ⟨fun hcon => absurd hcon (by
            push_neg
            exact ⟨hm1, hm2⟩), ?_, ?_⟩
          · rw [hmf4, TypedTransaction.max_fee_mk1559, hmf2]
            exact Option.isSome_iff_ne_none.mpr hm1
          · rw [hmp4, TypedTransaction.max_priority_fee_mk1559, hmp2]
            exact Option.isSome_iff_ne_none.mpr hm2

def eip1559PricedOnly : Eip1559TransactionRequest :=
  { eip1559Empty with max_fee_per_gas := some 40, max_priority_fee_per_gas := some 2 }

def eip1559Filled : Eip1559TransactionRequest :=
  { eip1559PricedOnly with gas := some 21000 }

def c2CallsExpected : List RpcCall :=
  [RpcCall.estimateEip1559Fees,
   RpcCall.estimateGas (.Eip1559 eip1559PricedOnly)]

/-- Claim C2 witness: the fee-pair theorem applied to the all-empty fee-market
transaction under the fixture environment, whose estimation oracle returns the
pair (40, 2). -/
theorem fill_transaction_eip1559_fee_pair_witness :
    ∃ mf mp, providerEnvFixture.estimate_eip1559_fees = .ok (mf, mp) ∧
      (TypedTransaction.Eip1559 eip1559Filled).max_fee = some mf ∧
      (TypedTransaction.Eip1559 eip1559Filled).max_priority_fee = some mp ∧
      c2CallsExpected.countP (fun c => c.is_fee_estimate) = 1 :=
  (fill_transaction_eip1559_fee_pair providerEnvFixture none eip1559Empty
      (.Eip1559 eip1559Filled) c2CallsExpected rfl).1 (Or.inl rfl)

set_option maxHeartbeats 400000 in
/-- Claim C4: for a legacy transaction with the gas limit unset, a successful
Provider::fill_transaction issues exactly one gas-estimate call; that call is
the last transport call of the fill, and the transaction it simulates already
has its gas price resolved. -/
theorem fill_transaction_legacy_gas_estimate (p : ProviderEnv)
    (blk : Option Nat) (t : TransactionRequest) (tx4 : TypedTransaction)
    (calls : List RpcCall)
    (hgas : t.gas = none)
    (hok : Provider.fill_transaction p (.Legacy t) blk = .ok (tx4, calls)) :
    calls.countP (fun c => c.is_gas_estimate) = 1 ∧
    ∃ t3, calls.getLast? = some (RpcCall.estimateGas t3) ∧
      t3.gas_price.isSome = true := by
  rw [fill_transaction_decomp] at hok
  cases h1 : fill_step_sender_ens p (.Legacy t) with
  | error e =>
    rw [h1] at hok
    exact absurd hok (by simp [except_bind_def, Except.bind])
  | ok r1 =>
    obtain ⟨tx2, c1⟩ := r1
    rw [h1, except_bind_def] at hok
    simp only [Except.bind] at hok
    obtain ⟨htag2, hg2, hgp2, hmf2, hmp2, hcid2, hn2, hc1⟩ :=
      fill_step_sender_ens_spec p _ tx2 c1 h1
    cases h2 : fill_step_price p tx2 with
    | error e =>
      rw [h2] at hok
      exact absurd hok (by simp [except_bind_def, Except.bind])
    | ok r2 =>
      obtain ⟨tx3, c2⟩ := r2
      rw [h2, except_bind_def] at hok
      simp only [Except.bind] at hok
      obtain ⟨hgp3, htag3, hg3, hcid3, hn3, hc2⟩ :=
        fill_step_price_non1559 p tx2 tx3 c2
          (by rw [htag2]; simp [TypedTransaction.tag]) h2
      cases h3 : fill_step_gas p tx3 blk with
      | error e =>
        rw [h3] at hok
        exact absurd hok (by simp [except_bind_def, Except.bind])
      | ok r3 =>
        obtain ⟨tx4a, c3⟩ := r3
        rw [h3, except_bind_def] at hok
        simp only [Except.bind, except_pure_eq, Except.ok.injEq,
          Prod.mk.injEq] at hok
        obtain ⟨rfl, rfl⟩ := hok
        have hg3none : tx3.gas = none := by
          rw [hg3, hg2]; exact hgas
        obtain ⟨g, hge, rfl, rfl⟩ :=
          ((fill_step_gas_spec p tx3 blk tx4a c3 h3).2.2.2.2.2.2.1) hg3none
        constructor
        · rcases hc1 with rfl | ⟨nm, rfl⟩ <;> rcases hc2 with rfl | rfl <;>
            simp [List.countP_cons, List.countP_append, List.countP_nil,
              RpcCall.is_gas_estimate]
        · refine ⟨tx3, ?_, hgp3⟩
          rw [show c1 ++ c2 ++ [RpcCall.estimateGas tx3] =
            (c1 ++ c2) ++ [RpcCall.estimateGas tx3] from rfl]
          exact List.getLast?_concat _

def legacyPricedOnly : TransactionRequest :=
  { emptyRequest with gas_price := some 3 }

def c4CallsExpected : List RpcCall :=
  [RpcCall.getGasPrice, RpcCall.estimateGas (.Legacy legacyPricedOnly)]

/-- Claim C4 witness: the legacy gas-estimate theorem applied to the all-empty
legacy transaction under the fixture environment: one gas-price fetch, then
exactly one final gas estimate of the already-priced transaction. -/
theorem fill_transaction_legacy_gas_estimate_witness :
    c4CallsExpected.countP (fun c => c.is_gas_estimate) = 1 ∧
    ∃ t3, c4CallsExpected.getLast? = some (RpcCall.estimateGas t3) ∧
      t3.gas_price.isSome = true :=
  fill_transaction_legacy_gas_estimate providerEnvFixture none emptyRequest
    (.Legacy { legacyPricedOnly with gas := some 21000 }) c4CallsExpected
    rfl rfl

/-- Provider::fill_transaction never touches the chain id. -/
theorem fill_transaction_chain_id (p : ProviderEnv) (tx : TypedTransaction)
    (blk : Option Nat) (tx4 : TypedTransaction) (calls : List RpcCall)
    (h : Provider.fill_transaction p tx blk = .ok (tx4, calls)) :
    tx4.chain_id = tx.chain_id := by
  rw [fill_transaction_decomp] at h
  cases h1 : fill_step_sender_ens p tx with
  | error e =>
    rw [h1] at h
    exact absurd h (by simp [except_bind_def, Except.bind])
  | ok r1 =>
    obtain ⟨tx2, c1⟩ := r1
    rw [h1, except_bind_def] at h
    simp only [Except.bind] at h
    cases h2 : fill_step_price p tx2 with
    | error e =>
      rw [h2] at h
      exact absurd h (by simp [except_bind_def, Except.bind])
    | ok r2 =>
      obtain ⟨tx3, c2⟩ := r2
      rw [h2, except_bind_def] at h
      simp only [Except.bind] at h
      cases h3 : fill_step_gas p tx3 blk with
      | error e =>
        rw [h3] at h
        exact absurd h (by simp [except_bind_def, Except.bind])
      | ok r3 =>
        obtain ⟨tx4a, c3⟩ := r3
        rw [h3, except_bind_def] at h
        simp only [Except.bind, except_pure_eq, Except.ok.injEq,
          Prod.mk.injEq] at h
        obtain ⟨rfl, rfl⟩ := h
        have e1 := (fill_step_sender_ens_spec p tx tx2 c1 h1).2.2.2.2.2.1
        have e2 := fill_step_price_chain_id p tx2 tx3 c2 h2
        have e3 := (fill_step_gas_spec p tx3 blk tx4a c3 h3).1
        rw [e3, e2, e1]

set_option maxHeartbeats 400000 in
/-- SignerMiddleware::fill_transaction never overwrites a caller-set chain id:
the set chain id survives to the filled transaction. -/
theorem signer_fill_preserves_set_chain_id (s : Signer) (p : ProviderEnv)
    (tx : TypedTransaction) (blk : Option Nat) (A : Nat)
    (hA : tx.chain_id = some A) (tx4 : TypedTransaction)
    (calls : List RpcCall)
    (h : SignerMiddleware.fill_transaction s p tx blk = .ok (tx4, calls)) :
    tx4.chain_id = some A := by
  unfold SignerMiddleware.fill_transaction at h
  generalize hF : (match tx.from_ with
    | some f => if some f ≠ some s.address then f else s.address
    | none => s.address) = F at h
  simp only [except_bind_def, except_pure_eq] at h
  delta Except.bind at h
  simp only [TypedTransaction.chain_id_set_from, hA, Option.isNone_some,
    Bool.false_eq_true, if_false] at h
  cases hn : (tx.set_from F).nonce with
  | some n =>
    rw [hn] at h
    simp only [] at h
    cases hpf : Provider.fill_transaction p ((tx.set_from F).set_nonce n) blk with
    | error e =>
      rw [hpf] at h
      simp only [Except.mapError] at h
      exact absurd h (by simp)
    | ok r =>
      obtain ⟨tx4a, cI⟩ := r
      rw [hpf] at h
      simp only [Except.mapError, Except.ok.injEq, Prod.mk.injEq] at h
      obtain ⟨rfl, rfl⟩ := h
      rw [fill_transaction_chain_id p _ blk tx4a cI hpf,
        TypedTransaction.chain_id_set_nonce,
        TypedTransaction.chain_id_set_from, hA]
  | none =>
    rw [hn] at h
    simp only [] at h
    cases hgc : p.get_transaction_count F blk with
    | error e =>
      rw [hgc] at h
      simp only [Except.mapError] at h
      exact absurd h (by simp)
    | ok n =>
      rw [hgc] at h
      simp only [Except.mapError] at h
      cases hpf : Provider.fill_transaction p ((tx.set_from F).set_nonce n) blk with
      | error e =>
        rw [hpf] at h
        simp only [Except.mapError] at h
        exact absurd h (by simp)
      | ok r =>
        obtain ⟨tx4a, cI⟩ := r
        rw [hpf] at h
        simp only [Except.mapError, Except.ok.injEq, Prod.mk.injEq] at h
        obtain ⟨rfl, rfl⟩ := h
        rw [fill_transaction_chain_id p _ blk tx4a cI hpf,
          TypedTransaction.chain_id_set_nonce,
          TypedTransaction.chain_id_set_from, hA]

/-- Page-count lemma for the paginated log query: with a positive page size
and the cursor not yet past the head, the number of remaining pages is one
more than the full pages in the remaining distance. -/
theorem log_query_pages_length (P : Nat) (hP : 0 < P) :
    ∀ k f H, H + 1 - f ≤ k → f ≤ H →
      (log_query_pages f H P).length = (H - f) / P + 1 := by
  intro k
  induction k with
  | zero => intro f H hk hf; omega
  | succ k ih =>
    intro f H hk hf
    unfold log_query_pages
    rw [dif_neg (by omega), dif_neg (by omega)]
    by_cases hnext : f + P ≤ H
    · rw [List.length_cons, ih (f + P) H (by omega) hnext]
      have hPle : P ≤ H - f := by omega
      have : H - (f + P) = H - f - P := by omega
      rw [this]
      have := Nat.add_div_right (H - f - P) hP
      rw [Nat.sub_add_cancel hPle] at this
      omega
    · unfold log_query_pages
      rw [dif_neg (by omega), dif_pos (by omega)]
      have : H - f < P := by omega
      simp [Nat.div_eq_of_lt this]

/-- Every page window produced by the log query starts no earlier than the
cursor, ends exactly page_size - 1 blocks after its start, and starts no later
than the head. -/
theorem log_query_pages_mem (P : Nat) (hP : 0 < P) :
    ∀ k f H, H + 1 - f ≤ k →
      ∀ w ∈ log_query_pages f H P,
        w.2 = w.1 + P - 1 ∧ f ≤ w.1 ∧ w.1 ≤ H := by
  intro k
  induction k with
  | zero =>
    intro f H hk w hw
    unfold log_query_pages at hw
    rw [dif_neg (by omega), dif_pos (by omega)] at hw
    exact absurd hw (List.not_mem_nil w)
  | succ k ih =>
    intro f H hk w hw
    unfold log_query_pages at hw
    by_cases h0 : H < f
    · rw [dif_neg (by omega), dif_pos h0] at hw
      exact absurd hw (List.not_mem_nil w)
    · rw [dif_neg (by omega), dif_neg h0] at hw
      rcases List.mem_cons.mp hw with rfl | hw2
      · exact ⟨rfl, le_refl _, by omega⟩
      · obtain ⟨h1, h2, h3⟩ := ih (f + P) H (by omega) w hw2
        exact ⟨h1, by omega, h3⟩

/-- The log query's last page is the one whose exclusive upper bound passes
the head block. -/
theorem log_query_pages_last (P : Nat) (hP : 0 < P) :
    ∀ k f H, H + 1 - f ≤ k → f ≤ H →
      ∀ w, (log_query_pages f H P).getLast? = some w → H < w.1 + P := by
  intro k
  induction k with
  | zero => intro f H hk hf; omega
  | succ k ih =>
    intro f H hk hf w hw
    unfold log_query_pages at hw
    rw [dif_neg (by omega), dif_neg (by omega)] at hw
    by_cases hnext : f + P ≤ H
    · have hne : log_query_pages (f + P) H P ≠ [] := by
        have hlen := log_query_pages_length P hP k (f + P) H (by omega) hnext
        intro hcon
        rw [hcon] at hlen
        simp at hlen
      obtain ⟨b, l2, hbl⟩ := List.exists_cons_of_ne_nil hne
      rw [hbl, List.getLast?_cons_cons] at hw
      rw [← hbl] at hw
      exact ih (f + P) H (by omega) hnext w hw
    · have hempty : log_query_pages (f + P) H P = [] := by
        unfold log_query_pages
        rw [dif_neg (by omega), dif_pos (by omega)]
      rw [hempty] at hw
      simp at hw
      subst hw
      show H < f + P
      omega

/-- A constant list of naturals is sorted. -/
theorem sorted_of_all_eq (l : List Nat) (a : Nat) (h : ∀ x ∈ l, x = a) :
    l.Sorted (· ≤ ·) := by
  induction l with
  | nil => exact List.sorted_nil
  | cons x xs ih =>
    rw [List.sorted_cons]
    refine ⟨fun b hb => ?_, ih fun b hb => h b (List.mem_cons_of_mem x hb)⟩
    rw [h x (List.mem_cons_self x xs), h b (List.mem_cons_of_mem x hb)]

/-- The logs of a block range, fetched block by block, come out sorted by
block number, and each one's block lies in the range. -/
theorem flat_range_block_facts (logs_of : Nat → List Log)
    (hlogs : ∀ n, ∀ l ∈ logs_of n, l.block_number = n) :
    ∀ c a, (((List.range' a c).flatMap logs_of).map Log.block_number).Sorted (· ≤ ·) ∧
      ∀ l ∈ (List.range' a c).flatMap logs_of,
        a ≤ l.block_number ∧ l.block_number < a + c := by
  intro c
  induction c with
  | zero => intro a; simp
  | succ c ih =>
    intro a
    rw [List.range'_succ]
    constructor
    · rw [List.flatMap_cons, List.map_append, List.Sorted, List.pairwise_append]
      refine ⟨sorted_of_all_eq _ a ?_, (ih (a + 1)).1, ?_⟩
      · intro x hx
        obtain ⟨l, hl, rfl⟩ := List.mem_map.mp hx
        exact hlogs a l hl
      · intro x hx y hy
        obtain ⟨l, hl, rfl⟩ := List.mem_map.mp hx
        obtain ⟨l2, hl2, rfl⟩ := List.mem_map.mp hy
        rw [hlogs a l hl]
        have := ((ih (a + 1)).2 l2 hl2).1
        omega
    · intro l hl
      rw [List.flatMap_cons] at hl
      rcases List.mem_append.mp hl with hl1 | hl2
      · rw [hlogs a l hl1]
        omega
      · have := (ih (a + 1)).2 l hl2
        omega

/-- The delivered log sequence of a paginated query is sorted by block number
and bounded below by the cursor. -/
theorem log_query_delivered_facts (logs_of : Nat → List Log)
    (hlogs : ∀ n, ∀ l ∈ logs_of n, l.block_number = n) (P : Nat) (hP : 0 < P) :
    ∀ k f H, H + 1 - f ≤ k →
      ((log_query_delivered logs_of f H P).map Log.block_number).Sorted (· ≤ ·) ∧
      ∀ l ∈ log_query_delivered logs_of f H P, f ≤ l.block_number := by
  intro k
  induction k with
  | zero =>
    intro f H hk
    unfold log_query_delivered log_query_pages
    rw [dif_neg (by omega), dif_pos (by omega)]
    simp
  | succ k ih =>
    intro f H hk
    unfold log_query_delivered log_query_pages
    by_cases h0 : H < f
    · rw [dif_neg (by omega), dif_pos h0]
      simp
    · rw [dif_neg (by omega), dif_neg h0, List.flatMap_cons]
      have hpage : page_logs logs_of (f, f + P - 1) =
          (List.range' f P).flatMap logs_of := by
        unfold page_logs
        have h1 : f + P - 1 + 1 - f = P := by omega
        rw [h1]
      have hd : log_query_delivered logs_of (f + P) H P =
          (log_query_pages (f + P) H P).flatMap (page_logs logs_of) := rfl
      have hrest := ih (f + P) H (by omega)
      rw [hd] at hrest
      have hfacts := flat_range_block_facts logs_of hlogs P f
      constructor
      · rw [List.map_append, List.Sorted, List.pairwise_append]
        refine ⟨?_, hrest.1, ?_⟩
        · rw [hpage]
          exact hfacts.1
        · intro x hx y hy
          obtain ⟨l, hl, rfl⟩ := List.mem_map.mp hx
          obtain ⟨l2, hl2, rfl⟩ := List.mem_map.mp hy
          rw [hpage] at hl
          have hxb := (hfacts.2 l hl).2
          have hyb := hrest.2 l2 hl2
          omega
      · intro l hl
        rcases List.mem_append.mp hl with hl1 | hl2
        · rw [hpage] at hl1
          exact (hfacts.2 l hl1).1
        · have := hrest.2 l hl2
          omega

/-- Claim C7: for head block H, start block ≤ H, and positive page size P,
the paginated log query fetches pages covering windows of at most P blocks
each, delivers logs in non-decreasing block order, and terminates after the
page whose (exclusive) upper bound exceeds H, having fetched exactly
ceil((H - from_block + 1) / P) pages, written here as Nat ceiling division. -/
theorem log_query_pagination_spec (logs_of : Nat → List Log)
    (from_block last_block page_size : Nat)
    (hP : 0 < page_size) (hfh : from_block ≤ last_block)
    (hlogs : ∀ n, ∀ l ∈ logs_of n, l.block_number = n) :
    (log_query_pages from_block last_block page_size).length =
      (last_block - from_block + 1 + (page_size - 1)) / page_size ∧
    (∀ w ∈ log_query_pages from_block last_block page_size,
      w.2 + 1 - w.1 ≤ page_size) ∧
    ((log_query_delivered logs_of from_block last_block page_size).map
      Log.block_number).Sorted (· ≤ ·) ∧
    (∀ w, (log_query_pages from_block last_block page_size).getLast? = some w →
      last_block < w.1 + page_size) := by
  refine ⟨?_, ?_, ?_, ?_⟩
  · rw [log_query_pages_length page_size hP (last_block + 1 - from_block)
      from_block last_block (le_refl _) hfh]
    have h2 : last_block - from_block + 1 + (page_size - 1) =
        last_block - from_block + page_size := by omega
    rw [h2, Nat.add_div_right _ hP]
  · intro w hw
    have := log_query_pages_mem page_size hP (last_block + 1 - from_block)
      from_block last_block (le_refl _) w hw
    omega
  · exact (log_query_delivered_facts logs_of hlogs page_size hP
      (last_block + 1 - from_block) from_block last_block (le_refl _)).1
  · exact log_query_pages_last page_size hP (last_block + 1 - from_block)
      from_block last_block (le_refl _) hfh

/-- Claim C7 witness: the pagination theorem applied with one log per block,
start block 3, head block 10, page size 4: two pages, each of four blocks,
sorted delivery, last page reaching past the head. -/
theorem log_query_pagination_spec_witness :
    (log_query_pages 3 10 4).length = (10 - 3 + 1 + (4 - 1)) / 4 ∧
    (∀ w ∈ log_query_pages 3 10 4, w.2 + 1 - w.1 ≤ 4) ∧
    ((log_query_delivered (fun n => [⟨n⟩]) 3 10 4).map
      Log.block_number).Sorted (· ≤ ·) ∧
    (∀ w, (log_query_pages 3 10 4).getLast? = some w → 10 < w.1 + 4) :=
  log_query_pagination_spec (fun n => [⟨n⟩]) 3 10 4 (by decide) (by decide)
    (by
      intro n l hl
      simp only [List.mem_singleton] at hl
      rw [hl])

/-- Claim C1 (amended): with a transaction whose chain id A differs from the
signer's configured chain id, the RLP-signing helper sign_transaction fails
with DifferentChainID (it has no transport access at all, so no transport call
is made), and fill_transaction never silently overwrites the caller-set chain
id — it survives to the filled transaction.  fill_transaction itself performs
no chain-id check. -/
theorem signer_chain_id_mismatch_spec (s : Signer) (p : ProviderEnv)
    (tx : TypedTransaction) (blk : Option Nat) (A : Nat)
    (hA : tx.chain_id = some A) (hne : A ≠ s.chain_id) :
    SignerMiddleware.sign_transaction s tx =
      .error SignerMiddlewareError.DifferentChainID ∧
    ∀ tx4 calls,
      SignerMiddleware.fill_transaction s p tx blk = .ok (tx4, calls) →
      tx4.chain_id = some A := by
  refine ⟨?_, fun tx4 calls h =>
    signer_fill_preserves_set_chain_id s p tx blk A hA tx4 calls h⟩
  unfold SignerMiddleware.sign_transaction
  rw [hA]
  simp [hne]

def signerChain2 : Signer :=
  { address := 1
    chain_id := 2
    sign_transaction := fun _ => .ok 9
    sign_message := fun _ => .ok 9 }

def txFullChain1 : TypedTransaction :=
  .Legacy ⟨some 1, some (.Addr 2), some 21000, some 3, some 0, none, some 0, some 1⟩

/-- Claim C1 counterexample: a fully-specified legacy transaction with chain
id 1 against a signer configured for chain id 2.  The claim says both
fill_transaction and sign_transaction fail with DifferentChainID; in fact
fill_transaction succeeds (it performs no chain-id check), so the claim as
stated is false. -/
theorem signer_fill_mismatch_counterexample :
    txFullChain1.chain_id = some 1 ∧ (1 : Nat) ≠ signerChain2.chain_id ∧
    SignerMiddleware.fill_transaction signerChain2 providerEnvFixture
        txFullChain1 none ≠
      .error SignerMiddlewareError.DifferentChainID := by
  refine ⟨rfl, by decide, ?_⟩
  have h : SignerMiddleware.fill_transaction signerChain2 providerEnvFixture
      txFullChain1 none = .ok (txFullChain1, []) := rfl
  rw [h]
  simp

/-- Claim C1 witness: the amended chain-id theorem applied to the concrete
chain-1 transaction and chain-2 signer. -/
theorem signer_chain_id_mismatch_spec_witness :
    SignerMiddleware.sign_transaction signerChain2 txFullChain1 =
      .error SignerMiddlewareError.DifferentChainID ∧
    ∀ tx4 calls,
      SignerMiddleware.fill_transaction signerChain2 providerEnvFixture
          txFullChain1 none = .ok (tx4, calls) →
      tx4.chain_id = some 1 :=
  signer_chain_id_mismatch_spec signerChain2 providerEnvFixture txFullChain1
    none 1 rfl (by decide)
